import Mathlib

/-!
Verification of the gitlab-clone-all pipeline (shallow embedding).

The Rust sources embedded here:
- src/project.rs / src/main.rs: the Project record and the ProjectAction event type;
- src/main.rs (main, lines 301-350): the progress-aggregator loop;
- src/main.rs (fetch_projects, lines 195-229) and src/gitlab.rs (fetch_projects,
  lines 42-76): the two discovery producers, modelled against a page oracle
  (the deterministic, idempotent listing endpoint of the spec) with explicit fuel;
- src/git.rs (clone_projects, lines 29-120): the per-project clone worker's
  destination/URL computation, its outcome classification, and its use of
  try_send on the bounded event channel.

Rust u64/usize counters are modelled as Nat; the only subtraction in the code
(todo_count decrement) is guarded by the no-underflow invariant proved below.
-/

namespace GitlabCloneAll

/-- Project record, src/project.rs lines 4-10 (same shape in src/main.rs lines 62-68). -/
structure ProjectR where
  id : Nat
  ssh_url_to_repo : String
  http_url_to_repo : String
  path_with_namespace : String
deriving Repr, DecidableEq

/-- ProjectAction event, src/project.rs lines 12-24 (same shape in src/main.rs lines 16-28). -/
inductive ProjectAction where
  | toClone
  | cloned (project_path : String) (received_bytes : Nat) (received_objects : Nat)
  | failed (project_path : String) (err : String)
deriving Repr, DecidableEq

/-- CloneMethod, src/git.rs lines 11-15. -/
inductive CloneMethod where
  | Ssh
  | Https
deriving Repr, DecidableEq

def isToClone : ProjectAction → Bool
  | ProjectAction.toClone => true
  | _ => false

def isCloned : ProjectAction → Bool
  | ProjectAction.cloned _ _ _ => true
  | _ => false

def isFailed : ProjectAction → Bool
  | ProjectAction.failed _ _ => true
  | _ => false

/-- A terminal event is a Cloned or Failed event (resolves one unit of work). -/
def isTerminalEvent : ProjectAction → Bool
  | ProjectAction.toClone => false
  | _ => true

/-- Bytes reported by an event: the received_bytes of a Cloned event, 0 otherwise. -/
def clonedBytes : ProjectAction → Nat
  | ProjectAction.cloned _ rb _ => rb
  | _ => 0

/-! ## The progress aggregator, src/main.rs lines 301-350 -/

/-- The four aggregator counters of src/main.rs lines 301-304.
todo_count is Option Nat (initially None, i.e. undefined); the others are
usize counters modelled as Nat. -/
structure AggState where
  todoCount : Option Nat
  totalCount : Nat
  clonedCount : Nat
  totalBytes : Nat
deriving Repr, DecidableEq

/-- Initial aggregator state, src/main.rs lines 301-304. -/
def aggInit : AggState := ⟨none, 0, 0, 0⟩

/-- One aggregator transition, the match arms of src/main.rs lines 310-338:
ToClone does todo_count.map(+1).or(Some(1)) and total_count += 1;
Failed does todo_count.map(-1); Cloned does cloned_count += 1,
total_bytes += received_bytes, todo_count.map(-1). -/
def aggStep (s : AggState) : ProjectAction → AggState
  | ProjectAction.toClone =>
      ⟨(s.todoCount.map (fun n => n + 1)).orElse (fun _ => some 1),
        s.totalCount + 1, s.clonedCount, s.totalBytes⟩
  | ProjectAction.failed _ _ =>
      ⟨s.todoCount.map (fun n => n - 1), s.totalCount, s.clonedCount, s.totalBytes⟩
  | ProjectAction.cloned _ rb _ =>
      ⟨s.todoCount.map (fun n => n - 1), s.totalCount, s.clonedCount + 1,
        s.totalBytes + rb⟩

/-- How the aggregator loop ended: declaredDone is the summary-printing return of
src/main.rs lines 339-349 (todo_count.unwrap_or(0) == 0 after an event);
channelClosed is the recv-returned-None return of lines 311-313. -/
inductive AggOutcome where
  | declaredDone
  | channelClosed
deriving Repr, DecidableEq

/-- The aggregator loop of src/main.rs lines 306-350, driven by the finite stream
of events it receives; returns the final state, how the loop ended, and the
events actually processed (in order). -/
def aggLoop (s : AggState) : List ProjectAction → AggState × AggOutcome × List ProjectAction
  | [] => (s, AggOutcome.channelClosed, [])
  | e :: rest =>
    let s2 := aggStep s e
    if s2.todoCount.getD 0 = 0 then
      (s2, AggOutcome.declaredDone, [e])
    else
      let r := aggLoop s2 rest
      (r.1, r.2.1, e :: r.2.2)

/-- The states at which the aggregator loop of src/main.rs lines 306-350 actually
processes an event, paired with that event (same traversal as aggLoop). -/
def aggProcStates (s : AggState) : List ProjectAction → List (AggState × ProjectAction)
  | [] => []
  | e :: rest =>
    let s2 := aggStep s e
    if s2.todoCount.getD 0 = 0 then
      [(s, e)]
    else
      (s, e) :: aggProcStates s2 rest

/-! ## The clone worker, src/git.rs lines 29-120 -/

/-- git2 error codes, restricted to what the worker's match on
builder.clone distinguishes (src/git.rs lines 80-114): the Exists code
against every other code. -/
inductive GitErrorCode where
  | Exists
  | GenericError
  | NotFound
  | Auth
deriving Repr, DecidableEq

/-- A git2 error: a code plus its to_string() rendering. -/
structure GitError where
  code : GitErrorCode
  message : String
deriving Repr, DecidableEq

/-- Result of builder.clone (src/git.rs line 80): the repository value itself
is unused by the worker, so Ok carries nothing. -/
inductive CloneResult where
  | ok
  | err (e : GitError)
deriving Repr, DecidableEq

/-- Rust Path::join for the destination computation of src/git.rs line 36:
an absolute child replaces the base, otherwise the child is appended with a
separator as needed. -/
def pathJoin (base child : String) : String :=
  if child.startsWith "/" then child
  else if base = "" then child
  else if base.endsWith "/" then base ++ child
  else base ++ "/" ++ child

/-- The arguments the worker passes to builder.clone (src/git.rs line 80). -/
structure CloneCall where
  url : String
  dest : String
deriving Repr, DecidableEq

/-- The worker's clone invocation, src/git.rs lines 36 (destination path
expanded_path.join(path_with_namespace)) and 75-78 (URL selected by
CloneMethod: ssh_url_to_repo for Ssh, http_url_to_repo for Https). -/
def workerCall (expandedPath : String) (cloneMethod : CloneMethod) (project : ProjectR) :
    CloneCall :=
  { url :=
      match cloneMethod with
      | CloneMethod.Ssh => project.ssh_url_to_repo
      | CloneMethod.Https => project.http_url_to_repo,
    dest := pathJoin expandedPath project.path_with_namespace }

/-- The worker's outcome classification, the match on builder.clone of
src/git.rs lines 80-114: Ok and Err with code Exists both produce a Cloned
event carrying the tracked byte/object counters; any other Err produces a
Failed event carrying the error's to_string(). -/
def cloneOutcomeEvent (project : ProjectR) (res : CloneResult)
    (received_bytes received_objects : Nat) : ProjectAction :=
  match res with
  | CloneResult.ok =>
      ProjectAction.cloned project.path_with_namespace received_bytes received_objects
  | CloneResult.err e =>
      if e.code = GitErrorCode.Exists then
        ProjectAction.cloned project.path_with_namespace received_bytes received_objects
      else
        ProjectAction.failed project.path_with_namespace e.message

/-- The constructor tag of a ProjectAction, the only part of the event the
aggregator's match inspects. -/
inductive ActionTag where
  | toClone
  | cloned
  | failed
deriving Repr, DecidableEq

def actionTag : ProjectAction → ActionTag
  | ProjectAction.toClone => ActionTag.toClone
  | ProjectAction.cloned _ _ _ => ActionTag.cloned
  | ProjectAction.failed _ _ => ActionTag.failed

/-- One whole clone-worker task, src/git.rs lines 40-115: compute the clone
call from the project, run the mirror operation (given here as a model of the
git collaborator returning tracked byte/object counters and a result), and
produce the terminal event. -/
def cloneWorker (git : CloneCall → Nat × Nat × CloneResult)
    (expandedPath : String) (cloneMethod : CloneMethod) (project : ProjectR) :
    ProjectAction :=
  match git (workerCall expandedPath cloneMethod project) with
  | (rb, ro, res) => cloneOutcomeEvent project res rb ro

/-! ## The bounded event channel and the worker's try_send -/

/-- A bounded mpsc channel as seen by a sender: its capacity and the messages
currently buffered (tokio::sync::mpsc::channel(500), src/main.rs lines 270-272). -/
structure BoundedChannel (α : Type) where
  capacity : Nat
  buffered : List α
deriving Repr, DecidableEq

/-- tokio try_send: enqueue when below capacity, otherwise fail immediately. -/
def trySend {α : Type} (ch : BoundedChannel α) (x : α) :
    Except Unit (BoundedChannel α) :=
  if ch.buffered.length < ch.capacity then
    Except.ok ⟨ch.capacity, ch.buffered ++ [x]⟩
  else
    Except.error ()

/-- The clone worker's delivery of its terminal event, src/git.rs lines 83-90,
95-102 and 106-112 (same in src/main.rs lines 156-186): a try_send whose error
is unwrapped (a panic when the channel is full). -/
def workerSendEvent (ch : BoundedChannel ProjectAction) (e : ProjectAction) :
    Except Unit (BoundedChannel ProjectAction) :=
  trySend ch e

/-- An event channel of the configured capacity 500 that is entirely full. -/
def eventChannelFull : BoundedChannel ProjectAction :=
  ⟨500, List.replicate 500 ProjectAction.toClone⟩

/-! ## The discovery producers

src/main.rs fetch_projects (lines 195-229) and src/gitlab.rs fetch_projects
(lines 42-76). The listing endpoint (fetch_projects_paginated) is modelled as
a page oracle: a function from the pagination cursor to either a transport or
decode error or a page of projects — deterministic and idempotent for a given
cursor, as specified for the Project Directory Client. The unbounded Rust
loop is given explicit fuel; running out of fuel is a distinguished outcome
so that termination is a provable statement, not an assumption. -/

/-- The Project Directory Client as an oracle from cursor to page. -/
abbrev PageOracle := Option Nat → Except String (List ProjectR)

/-- projects.iter().map(p.id).last() of src/main.rs line 208 /
src/gitlab.rs line 55: the id of the last project of the page, if any. -/
def pageLastId (projects : List ProjectR) : Option Nat :=
  (projects.map (fun p => p.id)).getLast?

/-- How a discovery loop ended: normal break, a propagated oracle error, or
fuel exhaustion (the Rust loop still running). -/
inductive FetchOutcome where
  | ok
  | err (e : String)
  | fuelOut
deriving Repr, DecidableEq

/-- What a discovery loop published: the number of ToClone events sent on the
event channel, the projects sent on the project channel (in order), and how
the loop ended. -/
structure FetchTrace where
  toClones : Nat
  projects : List ProjectR
  outcome : FetchOutcome
deriving Repr, DecidableEq

namespace MainRs

/-- The loop of src/main.rs fetch_projects, lines 201-227, from a given cursor:
fetch the page, send ToClone and the project for EVERY project of the page,
then break when the page's last id equals the cursor or the page is empty,
else continue from the page's last id. -/
def fetch_projects_from (oracle : PageOracle) : Option Nat → Nat → FetchTrace
  | _, 0 => ⟨0, [], FetchOutcome.fuelOut⟩
  | cursor, fuel + 1 =>
    match oracle cursor with
    | Except.error e => ⟨0, [], FetchOutcome.err e⟩
    | Except.ok projects =>
      let newCursor := pageLastId projects
      if newCursor = cursor ∨ newCursor = none then
        ⟨projects.length, projects, FetchOutcome.ok⟩
      else
        match fetch_projects_from oracle newCursor fuel with
        | ⟨tc, ps, oc⟩ => ⟨projects.length + tc, projects ++ ps, oc⟩

/-- src/main.rs fetch_projects, lines 195-229: the loop started with cursor None. -/
def fetch_projects (oracle : PageOracle) (fuel : Nat) : FetchTrace :=
  fetch_projects_from oracle none fuel

end MainRs

namespace GitlabRs

/-- The loop of src/gitlab.rs fetch_projects, lines 48-74, from a given cursor:
fetch the page, break — BEFORE sending anything — when the page's last id
equals the cursor or the page is empty, else send ToClone and the project for
every project of the page and continue from the page's last id. -/
def fetch_projects_from (oracle : PageOracle) : Option Nat → Nat → FetchTrace
  | _, 0 => ⟨0, [], FetchOutcome.fuelOut⟩
  | cursor, fuel + 1 =>
    match oracle cursor with
    | Except.error e => ⟨0, [], FetchOutcome.err e⟩
    | Except.ok projects =>
      let newCursor := pageLastId projects
      if newCursor = cursor ∨ newCursor = none then
        ⟨0, [], FetchOutcome.ok⟩
      else
        match fetch_projects_from oracle newCursor fuel with
        | ⟨tc, ps, oc⟩ => ⟨projects.length + tc, projects ++ ps, oc⟩

/-- src/gitlab.rs fetch_projects, lines 42-76: the loop started with cursor None. -/
def fetch_projects (oracle : PageOracle) (fuel : Nat) : FetchTrace :=
  fetch_projects_from oracle none fuel

end GitlabRs

/-- The oracle, queried from a given cursor, yields the non-terminal pages pre
(each nonempty and not repeating its cursor) in order, and then a terminal
page term: one that is empty or whose last id equals the cursor it was
requested with. This is the precondition under which the spec discusses
discovery: a page sequence ending with an empty page or a repeated tail. -/
inductive FetchPath (oracle : PageOracle) : Option Nat → List (List ProjectR) → List ProjectR → Prop where
  | terminal {cursor : Option Nat} {page : List ProjectR} :
      oracle cursor = Except.ok page →
      (pageLastId page = cursor ∨ pageLastId page = none) →
      FetchPath oracle cursor [] page
  | step {cursor : Option Nat} {page : List ProjectR} {pre : List (List ProjectR)}
      {term : List ProjectR} :
      oracle cursor = Except.ok page →
      ¬(pageLastId page = cursor ∨ pageLastId page = none) →
      FetchPath oracle (pageLastId page) pre term →
      FetchPath oracle cursor (page :: pre) term

/-- The oracle, queried from a given cursor, yields the non-terminal pages pre
in order and then fails with error e on the next request. -/
inductive FetchErrPath (oracle : PageOracle) : Option Nat → List (List ProjectR) → String → Prop where
  | here {cursor : Option Nat} {e : String} :
      oracle cursor = Except.error e →
      FetchErrPath oracle cursor [] e
  | step {cursor : Option Nat} {page : List ProjectR} {pre : List (List ProjectR)}
      {e : String} :
      oracle cursor = Except.ok page →
      ¬(pageLastId page = cursor ∨ pageLastId page = none) →
      FetchErrPath oracle (pageLastId page) pre e →
      FetchErrPath oracle cursor (page :: pre) e

/-! ## Helper lemmas about the discovery loops -/

/-- On a terminal path, the main.rs loop breaks with outcome ok, having
published every page it fetched — the terminal page included. -/
lemma mainLoop_ok_of_path {oracle : PageOracle} {c : Option Nat}
    {pre : List (List ProjectR)} {term : List ProjectR}
    (h : FetchPath oracle c pre term) :
    ∀ fuel, pre.length < fuel →
      MainRs.fetch_projects_from oracle c fuel =
        ⟨(pre.map List.length).sum + term.length, pre.flatten ++ term, FetchOutcome.ok⟩ := by
  induction h with
  | terminal h1 h2 =>
    intro fuel hf
    match fuel with
    | f + 1 =>
      simp only [MainRs.fetch_projects_from, h1]
      rw [if_pos h2]
      simp
  | step h1 h2 h3 ih =>
    intro fuel hf
    match fuel with
    | f + 1 =>
      have hlt : _ := ih f (by simp at hf; omega)
      simp only [MainRs.fetch_projects_from, h1]
      rw [if_neg h2]
      simp [hlt, Nat.add_assoc]

/-- On a terminal path, the gitlab.rs loop breaks with outcome ok, having
published exactly the non-terminal pages. -/
lemma gitlabLoop_ok_of_path {oracle : PageOracle} {c : Option Nat}
    {pre : List (List ProjectR)} {term : List ProjectR}
    (h : FetchPath oracle c pre term) :
    ∀ fuel, pre.length < fuel →
      GitlabRs.fetch_projects_from oracle c fuel =
        ⟨(pre.map List.length).sum, pre.flatten, FetchOutcome.ok⟩ := by
  induction h with
  | terminal h1 h2 =>
    intro fuel hf
    match fuel with
    | f + 1 =>
      simp only [GitlabRs.fetch_projects_from, h1]
      rw [if_pos h2]
      simp
  | step h1 h2 h3 ih =>
    intro fuel hf
    match fuel with
    | f + 1 =>
      have hlt : _ := ih f (by simp at hf; omega)
      simp only [GitlabRs.fetch_projects_from, h1]
      rw [if_neg h2]
      simp [hlt]

/-- On an error path, the main.rs loop propagates the error, having published
exactly the pages fetched before the failing request. -/
lemma mainLoop_err_of_path {oracle : PageOracle} {c : Option Nat}
    {pre : List (List ProjectR)} {e : String}
    (h : FetchErrPath oracle c pre e) :
    ∀ fuel, pre.length < fuel →
      MainRs.fetch_projects_from oracle c fuel =
        ⟨(pre.map List.length).sum, pre.flatten, FetchOutcome.err e⟩ := by
  induction h with
  | here h1 =>
    intro fuel hf
    match fuel with
    | f + 1 =>
      simp [MainRs.fetch_projects_from, h1]
  | step h1 h2 h3 ih =>
    intro fuel hf
    match fuel with
    | f + 1 =>
      have hlt : _ := ih f (by simp at hf; omega)
      simp only [MainRs.fetch_projects_from, h1]
      rw [if_neg h2]
      simp [hlt]

/-- On an error path, the gitlab.rs loop propagates the error, having published
exactly the pages fetched before the failing request. -/
lemma gitlabLoop_err_of_path {oracle : PageOracle} {c : Option Nat}
    {pre : List (List ProjectR)} {e : String}
    (h : FetchErrPath oracle c pre e) :
    ∀ fuel, pre.length < fuel →
      GitlabRs.fetch_projects_from oracle c fuel =
        ⟨(pre.map List.length).sum, pre.flatten, FetchOutcome.err e⟩ := by
  induction h with
  | here h1 =>
    intro fuel hf
    match fuel with
    | f + 1 =>
      simp [GitlabRs.fetch_projects_from, h1]
  | step h1 h2 h3 ih =>
    intro fuel hf
    match fuel with
    | f + 1 =>
      have hlt : _ := ih f (by simp at hf; omega)
      simp only [GitlabRs.fetch_projects_from, h1]
      rw [if_neg h2]
      simp [hlt]

/-! ## Helper lemmas about the aggregator loop -/

/-- Terminal events split into Cloned and Failed events. -/
lemma countTerminal_split (l : List ProjectAction) :
    l.countP isTerminalEvent = l.countP isCloned + l.countP isFailed := by
  induction l with
  | nil => simp
  | cons e rest ih =>
    cases e <;>
      simp [List.countP_cons, isTerminalEvent, isCloned, isFailed, ih] <;> omega

/-- The events the aggregator loop reports as processed are exactly the events
of the processed-states traversal. -/
lemma aggLoop_processed_eq (l : List ProjectAction) :
    ∀ s : AggState, (aggLoop s l).2.2 = (aggProcStates s l).map Prod.snd := by
  induction l with
  | nil => intro s; simp [aggLoop, aggProcStates]
  | cons e rest ih =>
    intro s
    by_cases hc : (aggStep s e).todoCount.getD 0 = 0
    · simp [aggLoop, aggProcStates, hc]
    · simp [aggLoop, aggProcStates, hc, ih]

/-- Bookkeeping of the aggregator loop started from a state whose todo counter
is defined and positive: totals, cloned counts and bytes accumulate the counts
of the processed events, and the todo counter stays defined, balancing
ToClone increments against terminal decrements with no truncation. -/
lemma aggLoop_accounting (l : List ProjectAction) :
    ∀ (s : AggState) (n : Nat), s.todoCount = some (n + 1) →
    ∀ sf oc pr, aggLoop s l = (sf, oc, pr) →
      sf.totalCount = s.totalCount + pr.countP isToClone ∧
      sf.clonedCount = s.clonedCount + pr.countP isCloned ∧
      sf.totalBytes = s.totalBytes + (pr.map clonedBytes).sum ∧
      ∃ m, sf.todoCount = some m ∧
        m + pr.countP isTerminalEvent = (n + 1) + pr.countP isToClone := by
  induction l with
  | nil =>
    intro s n hs sf oc pr h
    simp only [aggLoop, Prod.mk.injEq] at h
    obtain ⟨h1, _, h3⟩ := h
    subst h1
    subst h3
    refine ⟨by simp, by simp, by simp, n + 1, hs, by simp⟩
  | cons e rest ih =>
    intro s n hs sf oc pr h
    by_cases hc : (aggStep s e).todoCount.getD 0 = 0
    · rw [aggLoop, if_pos hc] at h
      simp only [Prod.mk.injEq] at h
      obtain ⟨h1, _, h3⟩ := h
      subst h1
      subst h3
      cases e with
      | toClone => simp [aggStep, hs] at hc
      | cloned p rb ro =>
        simp only [aggStep, hs, Option.map_some, Option.getD_some] at hc
        refine ⟨by simp [aggStep, List.countP_cons, isToClone],
          by simp [aggStep, List.countP_cons, isCloned],
          by simp [aggStep, clonedBytes],
          n + 1 - 1, by simp [aggStep, hs],
          by simp [List.countP_cons, isTerminalEvent, isToClone]⟩
      | failed p er =>
        simp only [aggStep, hs, Option.map_some, Option.getD_some] at hc
        refine ⟨by simp [aggStep, List.countP_cons, isToClone],
          by simp [aggStep, List.countP_cons, isCloned],
          by simp [aggStep, clonedBytes],
          n + 1 - 1, by simp [aggStep, hs],
          by simp [List.countP_cons, isTerminalEvent, isToClone]⟩
    · rw [aggLoop] at h
      simp only [if_neg hc] at h
      rcases hrec : aggLoop (aggStep s e) rest with ⟨sf2, oc2, pr2⟩
      rw [hrec] at h
      simp only [Prod.mk.injEq] at h
      obtain ⟨h1, _, h3⟩ := h
      subst h1
      subst h3
      cases e with
      | toClone =>
        have ht : (aggStep s ProjectAction.toClone).todoCount = some (n + 1 + 1) := by
          simp [aggStep, hs]
        obtain ⟨e1, e2, e3, m, e4, e5⟩ := ih _ (n + 1) ht sf2 oc2 pr2 hrec
        simp only [aggStep] at e1 e2 e3
        refine ⟨?_, ?_, ?_, m, e4, ?_⟩
        · simp only [List.countP_cons, isToClone]
          simp
          omega
        · simp only [List.countP_cons, isCloned]
          simp
          omega
        · simp only [List.map_cons, List.sum_cons, clonedBytes]
          omega
        · simp only [List.countP_cons, isTerminalEvent, isToClone]
          simp
          omega
      | cloned p rb ro =>
        have ht : (aggStep s (ProjectAction.cloned p rb ro)).todoCount = some n := by
          simp [aggStep, hs]
        rcases n with _ | k
        · rw [ht] at hc
          simp at hc
        · obtain ⟨e1, e2, e3, m, e4, e5⟩ := ih _ k ht sf2 oc2 pr2 hrec
          simp only [aggStep] at e1 e2 e3
          refine ⟨?_, ?_, ?_, m, e4, ?_⟩
          · simp only [List.countP_cons, isToClone]
            simp
            omega
          · simp only [List.countP_cons, isCloned]
            simp
            omega
          · simp only [List.map_cons, List.sum_cons, clonedBytes]
            omega
          · simp only [List.countP_cons, isTerminalEvent, isToClone]
            simp
            omega
      | failed p er =>
        have ht : (aggStep s (ProjectAction.failed p er)).todoCount = some n := by
          simp [aggStep, hs]
        rcases n with _ | k
        · rw [ht] at hc
          simp at hc
        · obtain ⟨e1, e2, e3, m, e4, e5⟩ := ih _ k ht sf2 oc2 pr2 hrec
          simp only [aggStep] at e1 e2 e3
          refine ⟨?_, ?_, ?_, m, e4, ?_⟩
          · simp only [List.countP_cons, isToClone]
            simp
            omega
          · simp only [List.countP_cons, isCloned]
            simp
            omega
          · simp only [List.map_cons, List.sum_cons, clonedBytes]
            omega
          · simp only [List.countP_cons, isTerminalEvent, isToClone]
            simp
            omega

/-- The loop-head invariant of the aggregator: at every state from which an
event is actually processed, the todo counter is still undefined or at least 1
(the completion check of src/main.rs line 339 rules out a defined zero). -/
lemma aggProcStates_inv (l : List ProjectAction) :
    ∀ s : AggState,
      (s.todoCount = none ∨ ∃ n, s.todoCount = some (n + 1)) →
      ∀ q ∈ aggProcStates s l,
        q.1.todoCount = none ∨ ∃ n, q.1.todoCount = some (n + 1) := by
  induction l with
  | nil =>
    intro s hs q hq
    simp [aggProcStates] at hq
  | cons e rest ih =>
    intro s hs q hq
    by_cases hc : (aggStep s e).todoCount.getD 0 = 0
    · rw [aggProcStates, if_pos hc] at hq
      simp at hq
      rw [hq]
      exact hs
    · rw [aggProcStates, if_neg hc] at hq
      rcases List.mem_cons.1 hq with h1 | h2
      · rw [h1]
        exact hs
      · refine ih (aggStep s e) ?_ q h2
        right
        rcases hcase : (aggStep s e).todoCount with _ | m
        · rw [hcase] at hc
          simp at hc
        · rcases m with _ | k
          · rw [hcase] at hc
            simp at hc
          · exact ⟨k, rfl⟩

/-! ## Claims about the aggregator -/

/-- C2: at declared completion of the aggregator — the loop of src/main.rs
lines 306-350 returning through its summary branch after a processed event,
with the todo counter having reached zero — the total count equals the cloned
count plus the number of Failed events processed; equivalently the number of
ToClone events processed equals the number of Cloned plus Failed events
processed. -/
theorem conservation_at_completion (l : List ProjectAction) (sf : AggState)
    (pr : List ProjectAction)
    (h : aggLoop aggInit l = (sf, AggOutcome.declaredDone, pr))
    (htodo : sf.todoCount = some 0) :
    sf.totalCount = sf.clonedCount + pr.countP isFailed ∧
    pr.countP isToClone = pr.countP isCloned + pr.countP isFailed := by
  cases l with
  | nil => simp [aggLoop] at h
  | cons e rest =>
    by_cases hc : (aggStep aggInit e).todoCount.getD 0 = 0
    · rw [aggLoop, if_pos hc] at h
      simp only [Prod.mk.injEq] at h
      obtain ⟨h1, _, h3⟩ := h
      subst h1
      subst h3
      cases e with
      | toClone => simp [aggStep, aggInit] at hc
      | cloned p rb ro => simp [aggStep, aggInit] at htodo
      | failed p er => simp [aggStep, aggInit] at htodo
    · rw [aggLoop] at h
      simp only [if_neg hc] at h
      rcases hrec : aggLoop (aggStep aggInit e) rest with ⟨sf2, oc2, pr2⟩
      rw [hrec] at h
      simp only [Prod.mk.injEq] at h
      obtain ⟨h1, _, h3⟩ := h
      subst h1
      subst h3
      cases e with
      | cloned p rb ro => simp [aggStep, aggInit] at hc
      | failed p er => simp [aggStep, aggInit] at hc
      | toClone =>
        have ht : (aggStep aggInit ProjectAction.toClone).todoCount = some (0 + 1) := by
          simp [aggStep, aggInit]
        obtain ⟨e1, e2, _, m, e4, e5⟩ :=
          aggLoop_accounting rest _ 0 ht sf2 oc2 pr2 hrec
        rw [htodo] at e4
        have hm : m = 0 := by
          injection e4.symm with hm
        subst hm
        have hsplit := countTerminal_split pr2
        simp only [aggStep, aggInit] at e1 e2
        constructor
        · simp only [List.countP_cons, isFailed]
          simp
          omega
        · simp only [List.countP_cons, isToClone, isCloned, isFailed]
          simp
          omega

/-- C3: the aggregator's per-event transition (src/main.rs lines 310-338)
matches the spec's table: ToClone increments the todo counter — defining it
as 1 when previously undefined — and the total count, and changes nothing
else; Cloned increments the cloned count, adds the received bytes to the
byte total and decrements the todo counter, and changes nothing else; Failed
only decrements the todo counter. -/
theorem aggregator_transition_table (s : AggState) (p : String) (rb ro : Nat)
    (er : String) (n : Nat) :
    aggStep s ProjectAction.toClone =
      ⟨some (s.todoCount.getD 0 + 1), s.totalCount + 1, s.clonedCount, s.totalBytes⟩ ∧
    (s.todoCount = some (n + 1) →
      aggStep s (ProjectAction.cloned p rb ro) =
        ⟨some n, s.totalCount, s.clonedCount + 1, s.totalBytes + rb⟩) ∧
    (s.todoCount = some (n + 1) →
      aggStep s (ProjectAction.failed p er) =
        ⟨some n, s.totalCount, s.clonedCount, s.totalBytes⟩) := by
  refine ⟨?_, ?_, ?_⟩
  · rcases hcase : s.todoCount with _ | k <;> simp [aggStep, hcase, Option.orElse]
  · intro hs
    simp [aggStep, hs]
  · intro hs
    simp [aggStep, hs]

/-- C3 witness: the table evaluated at a concrete state and concrete events. -/
theorem aggregator_transition_table_witness :
    aggStep ⟨some 3, 10, 2, 7⟩ (ProjectAction.cloned "g/p" 4 1) =
      ⟨some 2, 10, 3, 11⟩ ∧
    aggStep ⟨some 3, 10, 2, 7⟩ ProjectAction.toClone =
      ⟨some 4, 11, 2, 7⟩ ∧
    aggStep ⟨some 3, 10, 2, 7⟩ (ProjectAction.failed "g/p" "e") =
      ⟨some 2, 10, 2, 7⟩ :=
  ⟨(aggregator_transition_table ⟨some 3, 10, 2, 7⟩ "g/p" 4 1 "e" 2).2.1 rfl,
    (aggregator_transition_table ⟨some 3, 10, 2, 7⟩ "g/p" 4 1 "e" 2).1,
    (aggregator_transition_table ⟨some 3, 10, 2, 7⟩ "g/p" 4 1 "e" 2).2.2 rfl⟩

/-- C2 witness: a concrete stream reaching declared completion with a
balanced ledger. -/
theorem conservation_at_completion_witness :
    (⟨some 0, 1, 1, 5⟩ : AggState).totalCount =
      (⟨some 0, 1, 1, 5⟩ : AggState).clonedCount +
        ([ProjectAction.toClone, ProjectAction.cloned "g/p" 5 1].countP isFailed) ∧
    ([ProjectAction.toClone, ProjectAction.cloned "g/p" 5 1].countP isToClone) =
      ([ProjectAction.toClone, ProjectAction.cloned "g/p" 5 1].countP isCloned) +
        ([ProjectAction.toClone, ProjectAction.cloned "g/p" 5 1].countP isFailed) :=
  conservation_at_completion
    [ProjectAction.toClone, ProjectAction.cloned "g/p" 5 1]
    ⟨some 0, 1, 1, 5⟩
    [ProjectAction.toClone, ProjectAction.cloned "g/p" 5 1]
    (by decide) rfl

/-- C4: for every finite stream fed to the aggregator loop, the events the
loop processes are exactly those of the processed-states traversal, and every
Cloned or Failed event is processed from a state whose todo counter is still
undefined or at least 1 — the todo decrement of src/main.rs lines 319 and 329
never underflows. -/
theorem aggregator_no_underflow (l : List ProjectAction) :
    (aggLoop aggInit l).2.2 = (aggProcStates aggInit l).map Prod.snd ∧
    ∀ q ∈ aggProcStates aggInit l, isTerminalEvent q.2 = true →
      q.1.todoCount = none ∨ ∃ n, q.1.todoCount = some (n + 1) := by
  refine ⟨aggLoop_processed_eq l aggInit, ?_⟩
  intro q hq _
  exact aggProcStates_inv l aggInit (Or.inl rfl) q hq

/-- C4 witness: a concrete stream in which a Failed event is processed from a
state with a defined positive todo counter. -/
theorem aggregator_no_underflow_witness :
    ((⟨some 1, 1, 0, 0⟩, ProjectAction.failed "g/p" "e") :
        AggState × ProjectAction).1.todoCount = none ∨
    ∃ n, ((⟨some 1, 1, 0, 0⟩, ProjectAction.failed "g/p" "e") :
        AggState × ProjectAction).1.todoCount = some (n + 1) :=
  (aggregator_no_underflow [ProjectAction.toClone, ProjectAction.failed "g/p" "e"]).2
    (⟨some 1, 1, 0, 0⟩, ProjectAction.failed "g/p" "e") (by decide) rfl

/-! ## Claims about the discovery producers -/

/-- A concrete project used in counterexamples and witnesses. -/
def p1 : ProjectR := ⟨1, "git@host:a/b.git", "https host a b", "a/b"⟩

/-- A page oracle whose listing returns the page with the project of id 1 and
then, queried with cursor 1, the very same tail page again — the repeated-tail
termination scenario of the spec. -/
def oracleRepeat : PageOracle := fun c =>
  match c with
  | none => Except.ok [p1]
  | some 1 => Except.ok [p1]
  | some _ => Except.ok []

/-- Against oracleRepeat, discovery sees one non-terminal page and then the
terminal repeated page. -/
lemma fetchPath_repeat : FetchPath oracleRepeat none [[p1]] [p1] :=
  FetchPath.step rfl (by decide) (FetchPath.terminal rfl (Or.inl rfl))

/-- C1 counterexample: against oracleRepeat — one non-terminal page of size 1
followed by the terminal repeat, so sum of page sizes excluding the terminal
repeat is 1 — the producer of src/main.rs emits 2 ToClone events and publishes
the tail project twice, because it sends every project of a page before the
termination check. -/
theorem discovery_emission_count_counterexample :
    FetchPath oracleRepeat none [[p1]] [p1] ∧
    (([[p1]] : List (List ProjectR)).map List.length).sum = 1 ∧
    (MainRs.fetch_projects oracleRepeat 3).toClones = 2 ∧
    (MainRs.fetch_projects oracleRepeat 3).projects = [p1, p1] :=
  ⟨fetchPath_repeat, rfl, rfl, rfl⟩

/-- C1 (amended): on a page sequence ending with an empty page or a repeated
tail page, fetch_projects of src/gitlab.rs emits exactly sum of the page
sizes excluding the terminal page as ToClone events and publishes exactly the
non-terminal pages' projects in page order; fetch_projects of src/main.rs also
emits and publishes the terminal page, i.e. the sum including the terminal
page (the two coincide when the terminal page is empty). -/
theorem discovery_emission_count (oracle : PageOracle) (pre : List (List ProjectR))
    (term : List ProjectR) (fuel : Nat)
    (h : FetchPath oracle none pre term) (hf : pre.length < fuel) :
    GitlabRs.fetch_projects oracle fuel =
      ⟨(pre.map List.length).sum, pre.flatten, FetchOutcome.ok⟩ ∧
    MainRs.fetch_projects oracle fuel =
      ⟨(pre.map List.length).sum + term.length, pre.flatten ++ term, FetchOutcome.ok⟩ :=
  ⟨gitlabLoop_ok_of_path h fuel hf, mainLoop_ok_of_path h fuel hf⟩

/-- C1 witness: the amended statement evaluated against oracleRepeat. -/
theorem discovery_emission_count_witness :
    GitlabRs.fetch_projects oracleRepeat 3 = ⟨1, [p1], FetchOutcome.ok⟩ ∧
    MainRs.fetch_projects oracleRepeat 3 = ⟨2, [p1, p1], FetchOutcome.ok⟩ := by
  have h := discovery_emission_count oracleRepeat [[p1]] [p1] 3
    fetchPath_repeat (by decide)
  simpa using h

/-- C6: when a page request fails, both discovery producers propagate the
error, having published exactly the projects of the earlier pages and one
ToClone event each and nothing further; in particular when the very first
request fails, nothing at all is published on either channel. -/
theorem fetch_error_propagation (oracle : PageOracle) (pre : List (List ProjectR))
    (e : String) (fuel : Nat)
    (h : FetchErrPath oracle none pre e) (hf : pre.length < fuel) :
    MainRs.fetch_projects oracle fuel =
      ⟨(pre.map List.length).sum, pre.flatten, FetchOutcome.err e⟩ ∧
    GitlabRs.fetch_projects oracle fuel =
      ⟨(pre.map List.length).sum, pre.flatten, FetchOutcome.err e⟩ ∧
    (pre = [] →
      MainRs.fetch_projects oracle fuel = ⟨0, [], FetchOutcome.err e⟩ ∧
      GitlabRs.fetch_projects oracle fuel = ⟨0, [], FetchOutcome.err e⟩) := by
  refine ⟨mainLoop_err_of_path h fuel hf, gitlabLoop_err_of_path h fuel hf, ?_⟩
  intro hpre
  subst hpre
  have h1 := mainLoop_err_of_path h fuel hf
  have h2 := gitlabLoop_err_of_path h fuel hf
  simpa using And.intro h1 h2

/-- An oracle whose every request fails, as with a transport timeout. -/
def oracleDown : PageOracle := fun _ => Except.error "timeout"

/-- C6 witness: a first-page timeout publishes nothing and surfaces the error. -/
theorem fetch_error_propagation_witness :
    MainRs.fetch_projects oracleDown 1 = ⟨0, [], FetchOutcome.err "timeout"⟩ ∧
    GitlabRs.fetch_projects oracleDown 1 = ⟨0, [], FetchOutcome.err "timeout"⟩ :=
  (fetch_error_propagation oracleDown [] "timeout" 1
    (FetchErrPath.here rfl) (by decide)).2.2 rfl

/-- C7: both discovery loops terminate — with enough fuel they break normally
rather than exhausting fuel — for every page oracle that, along its cursor
trace, eventually answers with an empty page or with a page repeating the
cursor it was requested with. -/
theorem discovery_termination (oracle : PageOracle) (pre : List (List ProjectR))
    (term : List ProjectR) (fuel : Nat)
    (h : FetchPath oracle none pre term) (hf : pre.length < fuel) :
    (MainRs.fetch_projects oracle fuel).outcome = FetchOutcome.ok ∧
    (GitlabRs.fetch_projects oracle fuel).outcome = FetchOutcome.ok := by
  have hm := mainLoop_ok_of_path h fuel hf
  have hg := gitlabLoop_ok_of_path h fuel hf
  simp [MainRs.fetch_projects, GitlabRs.fetch_projects, hm, hg]

/-- C7 witness: termination against oracleRepeat. -/
theorem discovery_termination_witness :
    (MainRs.fetch_projects oracleRepeat 3).outcome = FetchOutcome.ok ∧
    (GitlabRs.fetch_projects oracleRepeat 3).outcome = FetchOutcome.ok :=
  discovery_termination oracleRepeat [[p1]] [p1] 3 fetchPath_repeat (by decide)

/-- C10 counterexample: against oracleRepeat the two fetch_projects
implementations publish different traces — 2 ToClone events and a duplicated
project from src/main.rs against 1 ToClone event from src/gitlab.rs. -/
theorem discovery_equivalence_counterexample :
    (MainRs.fetch_projects oracleRepeat 3).toClones = 2 ∧
    (GitlabRs.fetch_projects oracleRepeat 3).toClones = 1 ∧
    MainRs.fetch_projects oracleRepeat 3 ≠ GitlabRs.fetch_projects oracleRepeat 3 := by
  refine ⟨rfl, rfl, ?_⟩
  decide

/-- C10 (amended): the two discovery implementations agree on error traces and
on the non-terminal pages of every terminating trace; src/main.rs additionally
publishes the terminal page's projects and its ToClone events, so the two are
equal exactly when the terminal page is empty. -/
theorem discovery_refinement (oracle : PageOracle) (pre : List (List ProjectR))
    (term : List ProjectR) (fuel : Nat)
    (h : FetchPath oracle none pre term) (hf : pre.length < fuel) :
    (MainRs.fetch_projects oracle fuel).projects =
      (GitlabRs.fetch_projects oracle fuel).projects ++ term ∧
    (MainRs.fetch_projects oracle fuel).toClones =
      (GitlabRs.fetch_projects oracle fuel).toClones + term.length ∧
    (MainRs.fetch_projects oracle fuel).outcome =
      (GitlabRs.fetch_projects oracle fuel).outcome ∧
    (term = [] →
      MainRs.fetch_projects oracle fuel = GitlabRs.fetch_projects oracle fuel) := by
  have hm := mainLoop_ok_of_path h fuel hf
  have hg := gitlabLoop_ok_of_path h fuel hf
  refine ⟨?_, ?_, ?_, ?_⟩
  · simp [MainRs.fetch_projects, GitlabRs.fetch_projects, hm, hg]
  · simp [MainRs.fetch_projects, GitlabRs.fetch_projects, hm, hg]
  · simp [MainRs.fetch_projects, GitlabRs.fetch_projects, hm, hg]
  · intro ht
    subst ht
    simp [MainRs.fetch_projects, GitlabRs.fetch_projects, hm, hg]

/-- C10 witness: the refinement relation evaluated against oracleRepeat. -/
theorem discovery_refinement_witness :
    (MainRs.fetch_projects oracleRepeat 3).projects =
      (GitlabRs.fetch_projects oracleRepeat 3).projects ++ [p1] ∧
    (MainRs.fetch_projects oracleRepeat 3).toClones =
      (GitlabRs.fetch_projects oracleRepeat 3).toClones + 1 :=
  ⟨(discovery_refinement oracleRepeat [[p1]] [p1] 3 fetchPath_repeat (by decide)).1,
    (discovery_refinement oracleRepeat [[p1]] [p1] 3 fetchPath_repeat (by decide)).2.1⟩

/-! ## Claims about the clone worker and the event channel -/

/-- C5: a mirror operation failing with the Exists code produces a Cloned
event carrying the tracked byte/object counts — never a Failed event — and
its tag is the same as that of a successful mirror (src/git.rs lines 92-103). -/
theorem exists_error_reported_as_cloned (p : ProjectR) (rb ro : Nat) (msg : String) :
    cloneOutcomeEvent p (CloneResult.err ⟨GitErrorCode.Exists, msg⟩) rb ro =
      ProjectAction.cloned p.path_with_namespace rb ro ∧
    isFailed (cloneOutcomeEvent p (CloneResult.err ⟨GitErrorCode.Exists, msg⟩) rb ro) = false ∧
    actionTag (cloneOutcomeEvent p (CloneResult.err ⟨GitErrorCode.Exists, msg⟩) rb ro) =
      actionTag (cloneOutcomeEvent p CloneResult.ok rb ro) :=
  ⟨rfl, rfl, rfl⟩

/-- C8: the worker's mirror invocation targets exactly the destination root
joined with the project's namespaced path, and the URL selected by the clone
method — the SSH URL for Ssh, the HTTP URL for Https (src/git.rs lines 36 and
75-78). -/
theorem worker_destination_and_url (root : String) (m : CloneMethod) (p : ProjectR) :
    (workerCall root m p).dest = pathJoin root p.path_with_namespace ∧
    (workerCall root CloneMethod.Ssh p).url = p.ssh_url_to_repo ∧
    (workerCall root CloneMethod.Https p).url = p.http_url_to_repo :=
  ⟨rfl, rfl, rfl⟩

/-- C9 counterexample: a clone worker delivering its terminal event into a
full event channel of the configured capacity 500 does not block — its
try_send (src/git.rs lines 83-90) fails, reaching the unwrap panic branch. -/
theorem worker_send_full_channel_counterexample :
    workerSendEvent eventChannelFull (ProjectAction.cloned "g/p" 0 0) =
      Except.error () := by
  simp only [workerSendEvent, trySend, eventChannelFull, List.length_replicate]
  simp

/-- C9 (amended): the discovery producer blocks on send, but a clone worker
delivers its terminal event with try_send, which succeeds exactly when the
bounded event channel is below capacity and fails — feeding the unwrap panic —
whenever the channel is full. -/
theorem worker_send_spec (ch : BoundedChannel ProjectAction) (e : ProjectAction) :
    (ch.buffered.length < ch.capacity →
      workerSendEvent ch e = Except.ok ⟨ch.capacity, ch.buffered ++ [e]⟩) ∧
    (¬ ch.buffered.length < ch.capacity →
      workerSendEvent ch e = Except.error ()) := by
  constructor
  · intro h
    simp [workerSendEvent, trySend, h]
  · intro h
    simp [workerSendEvent, trySend, h]

/-- C9 witness: a send into a channel with free capacity succeeds. -/
theorem worker_send_spec_witness :
    workerSendEvent ⟨2, []⟩ ProjectAction.toClone =
      Except.ok ⟨2, [ProjectAction.toClone]⟩ :=
  (worker_send_spec ⟨2, []⟩ ProjectAction.toClone).1 (by decide)

end GitlabCloneAll
